import Mathlib

/-!
# Verification of the weewx-wcloud upload extension (`bin/user/wcloud.py`)

A shallow embedding of the WeatherCloud uploader: Python dicts holding
nullable numeric sensor values become association lists over `Option ℚ`,
the SQL windowed aggregates become list folds with SQL three-valued-logic
semantics, and the URL encoder becomes a pure function to `String`.
External host-library calls (weewx.units, weewx.restx, weewx.wxformulas,
time.gmtime/strftime) are modelled from the specification where noted.
-/

/-- A Python dict of sensor values: field name → nullable numeric value.
`lookup k = none` models "key absent", `lookup k = some none` models
"key present with value `None`", `lookup k = some (some v)` a real value. -/
abbrev Record := List (String × Option ℚ)

/-- Python dict assignment `rec[k] = v`, observationally via `List.lookup`
(the new binding shadows any earlier one). -/
def setk (rec : Record) (k : String) (v : Option ℚ) : Record := (k, v) :: rec

/-- Python `rec.get(k)`: `None` both when the key is absent and when it is
present with value `None`. -/
def pyGet (rec : Record) (k : String) : Option ℚ := (rec.lookup k).join

/-- One row of the archive table as seen by the three windowed queries:
`dateTime` plus the three nullable columns they read. -/
structure Row where
  dateTime : ℤ
  windSpeed : Option ℚ
  windGust : Option ℚ
  windDir : Option ℚ
deriving DecidableEq, Repr

/-- The rows selected by `WHERE dateTime>? AND dateTime<=?` with the
parameters `(ts - interval, ts)` used by all three aggregate queries. -/
def windowRows (store : List Row) (ts interval : ℤ) : List Row :=
  store.filter (fun r => ts - interval < r.dateTime ∧ r.dateTime ≤ ts)

/-- SQL `AVG` over a nullable column: NULL rows are ignored; NULL when no
non-NULL row remains. -/
def sqlAvg (vals : List (Option ℚ)) : Option ℚ :=
  let xs := vals.reduceOption
  if xs.isEmpty then none else some (xs.sum / xs.length)

/-- SQL `MAX` over a nullable expression: NULL rows are ignored; NULL when
no non-NULL row remains. -/
def sqlMax (vals : List (Option ℚ)) : Option ℚ :=
  (vals.reduceOption).foldl (fun acc x =>
    match acc with
    | none => some x
    | some m => some (max m x)) none

/-- `_get_windavg`: `SELECT AVG(windSpeed) ... WHERE dateTime>? AND dateTime<=?`
with the window `(ts-interval, ts]`. -/
def _get_windavg (store : List Row) (ts : ℤ) (interval : ℤ := 600) : Option ℚ :=
  sqlAvg ((windowRows store ts interval).map (·.windSpeed))

/-- The SQL expression
`CASE WHEN windSpeed >= windGust THEN windSpeed ELSE windGust END`
evaluated on one row with SQL three-valued logic: a comparison with a NULL
operand is not true, so the CASE falls through to the ELSE branch. -/
def sqlCaseGust (r : Row) : Option ℚ :=
  match r.windSpeed, r.windGust with
  | some ws, some wg => if ws ≥ wg then some ws else some wg
  | _, _ => r.windGust

/-- `_get_windhi`:
`SELECT MAX(CASE WHEN windSpeed >= windGust THEN windSpeed ELSE windGust END)`
over the window `(ts-interval, ts]`. -/
def _get_windhi (store : List Row) (ts : ℤ) (interval : ℤ := 600) : Option ℚ :=
  sqlMax ((windowRows store ts interval).map sqlCaseGust)

/-- `_get_winddiravg`: `SELECT AVG(windDir)` over the window `(ts-interval, ts]`. -/
def _get_winddiravg (store : List Row) (ts : ℤ) (interval : ℤ := 600) : Option ℚ :=
  sqlAvg ((windowRows store ts interval).map (·.windDir))

/-- The spec's description of the gust aggregate, per row: take
`max(windSpeed, windGust)` treating the gust as at least the sustained
speed, so a row in which the hardware reports only one of the two
quantities still contributes the reported one. -/
def specRowGust (r : Row) : Option ℚ :=
  match r.windSpeed, r.windGust with
  | some ws, some wg => some (max ws wg)
  | some ws, none => some ws
  | none, some wg => some wg
  | none, none => none

/-- The spec's `windowed_max_gust(store, ts, interval)`: maximum of
`specRowGust` across the rows of the window, null if none contributes. -/
def windowedMaxGust_spec (store : List Row) (ts : ℤ) (interval : ℤ := 600) : Option ℚ :=
  sqlMax ((windowRows store ts interval).map specRowGust)

/-- `_invert`: weewx reports battery status 1 = failure, wcloud wants 0 =
failure — `None → None`, `0 → 1`, anything else `→ 0`. -/
def _invert (x : Option ℚ) : Option ℚ :=
  match x with
  | none => none
  | some v => if v = 0 then some 1 else some 0

/-- weewx.US unit-system constant (0x01). -/
def usUS : ℕ := 1
/-- weewx.METRIC unit-system constant (0x10). -/
def usMETRIC : ℕ := 16
/-- weewx.METRICWX unit-system constant (0x11). -/
def usMETRICWX : ℕ := 17

/-- Modelled from the spec: the host's unit-conversion table
(`weewx.units.getStandardUnitType` / `weewx.units.convert`, external to this
repository) performs a linear conversion of a numeric wind speed into
meters per second, keyed by the source unit system: US records carry
mile_per_hour (× 0.44704), METRIC records carry km_per_hour (× 1/3.6);
an unknown system fails loudly. -/
def convertSpeedToMps (u : ℕ) (x : ℚ) : Except String ℚ :=
  if u = usUS then .ok (x * (44704 / 100000))
  else if u = usMETRIC then .ok (x * (10 / 36))
  else .error "unknown unit system"

/-- `_convert_windspeed`: convert a nullable wind speed into METRICWX
(m/s).  Mirrors the source: the explicit guard tests the *unit system* for
null, and when the system is already METRICWX the value (null or not) is
returned unchanged; otherwise the value is handed to the host conversion,
which per the spec propagates a null value as null (null sensor values are
never an error) and converts a number linearly, failing loudly only on an
unknown unit system. -/
def _convert_windspeed (v : Option ℚ) (fromUnitSystem : Option ℕ) : Except String (Option ℚ) :=
  match fromUnitSystem with
  | none => .ok none
  | some u =>
    if u ≠ usMETRICWX then
      match v with
      | some x => do
          let y ← convertSpeedToMps u x
          .ok (some y)
      | none => .ok none
    else .ok v

/-- Modelled from the spec: `weewx.wxformulas.heatindexC` (external), the
standard heat-index formula, returning null if any input is null.  The
numeric kernel is abstracted as a parameter; only its null-propagation
shape is used by this development. -/
def heatindexC (kernel : ℚ → ℚ → ℚ) (t rh : Option ℚ) : Option ℚ :=
  match t, rh with
  | some t, some rh => some (kernel t rh)
  | _, _ => none

/-- Modelled from the spec: `weewx.wxformulas.dewpointC` (external), the
standard dew-point formula (its kernel is transcendental, hence abstracted
as a parameter), returning null if any input is null. -/
def dewpointC (kernel : ℚ → ℚ → ℚ) (t rh : Option ℚ) : Option ℚ :=
  match t, rh with
  | some t, some rh => some (kernel t rh)
  | _, _ => none

/-- An archive record as handed to the extension by the host: the
timestamp and unit-system tag are structural (the host guarantees them),
the sensor fields are the nullable dict entries. -/
structure ArchiveRecord where
  dateTime : ℤ
  usUnits : Option ℕ
  fields : Record

/-- The wind-direction normalization applied inside `get_record`:
`if rec[k] > 359: rec[k] -= 360` — a single-step correction, not a modulo. -/
def normalizeDir (d : ℚ) : ℚ := if d > 359 then d - 360 else d

/-- Apply the `get_record` wind-direction normalization to key `k` of `rec`:
only when the key is present with a non-null value greater than 359. -/
def normalizeDirAt (rec : Record) (k : String) : Record :=
  match rec.lookup k with
  | some (some d) => if d > 359 then setk rec k (some (normalizeDir d)) else rec
  | _ => rec

/-- Lines 258-266 of `get_record`: store the three windowed aggregates
under `windavg`/`windhi`/`winddiravg` and wrap `windDir` and `winddiravg`
into [0,359]. -/
def grPre (store : List Row) (ts : ℤ) (rec0 : Record) : Record :=
  normalizeDirAt
    (normalizeDirAt
      (setk (setk (setk rec0 "windavg" (_get_windavg store ts))
          "windhi" (_get_windhi store ts))
        "winddiravg" (_get_winddiravg store ts))
      "windDir")
    "winddiravg"

/-- Lines 272-276 of `get_record`: when both `inTemp` and `inHumidity` are
present in the converted record, compute the indoor heat index and indoor
dew point. -/
def indoorStep (hiK dpK : ℚ → ℚ → ℚ) (rec : Record) : Record :=
  if (rec.lookup "inTemp").isSome ∧ (rec.lookup "inHumidity").isSome then
    setk (setk rec "inheatindex"
        (heatindexC hiK (pyGet rec "inTemp") (pyGet rec "inHumidity")))
      "indewpoint"
      (dewpointC dpK (pyGet rec "inTemp") (pyGet rec "inHumidity"))
  else rec

/-- One of the battery blocks of lines 279-288: when the source status
field is present in the raw record, store its inverted value under the
wire-side battery key. -/
def batStep (fields : Record) (srcKey batKey : String) (rec : Record) : Record :=
  match fields.lookup srcKey with
  | some o => setk rec batKey (_invert o)
  | none => rec

/-- Lines 272-288 of `get_record`: the indoor pair followed by the five
battery blocks. -/
def grPost (hiK dpK : ℚ → ℚ → ℚ) (fields : Record) (rec : Record) : Record :=
  batStep fields "inTempBatteryStatus" "bat05"
    (batStep fields "outTempBatteryStatus" "bat04"
      (batStep fields "rainBatteryStatus" "bat03"
        (batStep fields "windBatteryStatus" "bat02"
          (batStep fields "txBatteryStatus" "bat01"
            (indoorStep hiK dpK rec)))))

/-- `WeatherCloudThread.get_record`, lines 251-289 of the source.
`rec0` is the record returned by `super().get_record` already converted by
`weewx.units.to_METRICWX` (both calls are external host code; the spec says
they produce a copy of the archive record in canonical metric units, with
field presence and nullness preserved).  `record` is the original archive
record, `store` the archive table.  `hiK`/`dpK` are the numeric kernels of
the external heat-index/dew-point formulas. -/
def get_record (hiK dpK : ℚ → ℚ → ℚ) (rec0 : Record) (record : ArchiveRecord)
    (store : List Row) : Except String Record := do
  let rec5 := grPre store record.dateTime rec0
  let wa ← _convert_windspeed (pyGet rec5 "windavg") record.usUnits
  let rec6 := setk rec5 "windavg" wa
  let wh ← _convert_windspeed (pyGet rec6 "windhi") record.usUnits
  let rec7 := setk rec6 "windhi" wh
  pure (grPost hiK dpK record.fields rec7)

/-- The decimal digits of `n`, most significant first. -/
def natToChars (n : ℕ) : List Char := Nat.toDigits 10 n

/-- Decimal rendering of an integer, `-` prefix for negatives. -/
def intToChars (i : ℤ) : List Char :=
  if i < 0 then '-' :: natToChars (-i).toNat else natToChars i.toNat

/-- Python `'%.0f' % v`: the value rounded to the nearest integer and
printed with no decimal places.  Rounding of exact ties is modelled
half-up (`round` on ℚ); CPython rounds the ties of the underlying binary
float to even — the two agree on every non-tie, and no claim pins the tie
direction. -/
def formatDotZeroF (q : ℚ) : String := ⟨intToChars (round q)⟩

/-- `%02d`: the last two decimal digits of `n`, zero padded. -/
def pad2 (n : ℕ) : List Char := [Char.ofNat (48 + n / 10 % 10), Char.ofNat (48 + n % 10)]

/-- Left-pad a digit string with `'0'` to at least `k` characters. -/
def padLeft0 (k : ℕ) (s : List Char) : List Char := List.replicate (k - s.length) '0' ++ s

/-- Modelled from the spec: `time.strftime("%H%M", time.gmtime(t))`
(external) — the record timestamp interpreted in UTC, rendered as HHMM,
24-hour, zero-padded. -/
def hhmmOf (t : ℤ) : List Char :=
  let s := (t.emod 86400).toNat
  pad2 (s / 3600) ++ pad2 (s / 60 % 60)

/-- Days-since-epoch to (year, month, day) in the proleptic Gregorian
calendar (the standard civil-from-days computation used by C `gmtime`). -/
def civilFromDays (z0 : ℤ) : ℤ × ℕ × ℕ :=
  let z := z0 + 719468
  let era := z.fdiv 146097
  let doe := (z - era * 146097).toNat
  let yoe := (doe - doe / 1460 + doe / 36524 - doe / 146096) / 365
  let doy := doe - (365 * yoe + yoe / 4 - yoe / 100)
  let mp := (5 * doy + 2) / 153
  let d := doy - (153 * mp + 2) / 5 + 1
  let m := if mp < 10 then mp + 3 else mp - 9
  ((yoe : ℤ) + era * 400 + (if m ≤ 2 then 1 else 0), m, d)

/-- Modelled from the spec: `time.strftime("%Y%m%d", time.gmtime(t))`
(external) — the record's date in UTC as YYYYMMDD, zero-padded. -/
def yyyymmddOf (t : ℤ) : List Char :=
  let c := civilFromDays (t.fdiv 86400)
  padLeft0 4 (natToChars c.1.toNat) ++ pad2 c.2.1 ++ pad2 c.2.2

/-- The characters `urllib.parse.quote_plus` leaves unencoded: ASCII
letters, digits, and `_.-~`. -/
def isSafeChar (c : Char) : Bool :=
  c.isAlphanum || c = '-' || c = '_' || c = '.' || c = '~'

/-- Upper-case hexadecimal digit for `n < 16`. -/
def hexDigitCh (n : ℕ) : Char :=
  match n with
  | 0 => '0' | 1 => '1' | 2 => '2' | 3 => '3' | 4 => '4'
  | 5 => '5' | 6 => '6' | 7 => '7' | 8 => '8' | 9 => '9'
  | 10 => 'A' | 11 => 'B' | 12 => 'C' | 13 => 'D' | 14 => 'E' | _ => 'F'

/-- One character of `quote_plus`: safe characters pass through, space
becomes `+`, everything else becomes `%HH` of its code point (bytes above
one UTF-8 unit are modelled by their code point; no claim inspects them). -/
def encodeChar (c : Char) : List Char :=
  if isSafeChar c then [c]
  else if c = ' ' then ['+']
  else ['%', hexDigitCh (c.toNat / 16 % 16), hexDigitCh (c.toNat % 16)]

/-- `quote_plus` over a character list. -/
def percentEncode (s : List Char) : List Char := (s.map encodeChar).flatten

/-- Dropping a prefix never lengthens a list. -/
theorem dropWhile_length_le (p : Char → Bool) (l : List Char) :
    (l.dropWhile p).length ≤ l.length := by
  induction l with
  | nil => simp [List.dropWhile]
  | cons c rest ih =>
    simp only [List.dropWhile]
    cases p c
    · simp
    · simpa using Nat.le_succ_of_le ih

/-- One entry of `WeatherCloudThread._DATA_MAP`. -/
structure DataEntry where
  wire : String
  src : String
  fmt : String
  mult : ℚ
deriving DecidableEq, Repr

/-- `WeatherCloudThread._DATA_MAP`, in source order (Python ≥ 3.7 dict
iteration order); the commented-out entries of the source are absent. -/
def dataMap : List DataEntry :=
  [⟨"temp", "outTemp", "%.0f", 10⟩,
   ⟨"hum", "outHumidity", "%.0f", 1⟩,
   ⟨"wdir", "windDir", "%.0f", 1⟩,
   ⟨"wspd", "windSpeed", "%.0f", 10⟩,
   ⟨"bar", "barometer", "%.0f", 10⟩,
   ⟨"rain", "dayRain", "%.0f", 10⟩,
   ⟨"rainrate", "rainRate", "%.0f", 10⟩,
   ⟨"tempin", "inTemp", "%.0f", 10⟩,
   ⟨"humin", "inHumidity", "%.0f", 1⟩,
   ⟨"uvi", "UV", "%.0f", 10⟩,
   ⟨"solarrad", "radiation", "%.0f", 10⟩,
   ⟨"et", "ET", "%.0f", 10⟩,
   ⟨"chill", "windchill", "%.0f", 10⟩,
   ⟨"heat", "heatindex", "%.0f", 10⟩,
   ⟨"dew", "dewpoint", "%.0f", 10⟩,
   ⟨"battery", "consBatteryVoltage", "%.0f", 100⟩,
   ⟨"temp01", "extraTemp1", "%.0f", 10⟩,
   ⟨"temp02", "extraTemp2", "%.0f", 10⟩,
   ⟨"temp03", "extraTemp3", "%.0f", 10⟩,
   ⟨"temp04", "leafTemp1", "%.0f", 10⟩,
   ⟨"temp05", "leafTemp2", "%.0f", 10⟩,
   ⟨"temp06", "soilTemp1", "%.0f", 10⟩,
   ⟨"temp07", "soilTemp2", "%.0f", 10⟩,
   ⟨"temp08", "soilTemp3", "%.0f", 10⟩,
   ⟨"temp09", "soilTemp4", "%.0f", 10⟩,
   ⟨"temp10", "heatingTemp4", "%.0f", 10⟩,
   ⟨"leafwet01", "leafWet1", "%.0f", 1⟩,
   ⟨"leafwet02", "leafWet2", "%.0f", 1⟩,
   ⟨"hum01", "extraHumid1", "%.0f", 1⟩,
   ⟨"hum02", "extraHumid2", "%.0f", 1⟩,
   ⟨"soilmoist01", "soilMoist1", "%.0f", 1⟩,
   ⟨"soilmoist02", "soilMoist2", "%.0f", 1⟩,
   ⟨"soilmoist03", "soilMoist3", "%.0f", 1⟩,
   ⟨"soilmoist04", "soilMoist4", "%.0f", 1⟩,
   ⟨"wspdhi", "windhi", "%.0f", 10⟩,
   ⟨"wspdavg", "windavg", "%.0f", 10⟩,
   ⟨"wdiravg", "winddiravg", "%.0f", 1⟩,
   ⟨"heatin", "inheatindex", "%.0f", 10⟩,
   ⟨"dewin", "indewpoint", "%.0f", 10⟩,
   ⟨"battery01", "bat01", "%.0f", 1⟩,
   ⟨"battery02", "bat02", "%.0f", 1⟩,
   ⟨"battery03", "bat03", "%.0f", 1⟩,
   ⟨"battery04", "bat04", "%.0f", 1⟩,
   ⟨"battery05", "bat05", "%.0f", 1⟩]

/-- The mandatory header entries of `format_url`'s `values` dict, in
insertion order: protocol version, the fixed weewx client identifier 251,
account id and key, and the record's UTC time and date. -/
def headerPairs (ver id key : String) (dt : ℤ) : List (String × String) :=
  [("ver", ver), ("type", "251"), ("wid", id), ("key", key),
   ("time", ⟨hhmmOf dt⟩), ("date", ⟨yyyymmddOf dt⟩)]

/-- The body of `format_url`'s per-entry conditional (lines 302-306): the
formatted wire value when the source field is present (`rkey in record`)
and non-null (`record[rkey] is not None`), nothing otherwise. -/
def dataVal (fields : Record) (e : DataEntry) : Option String :=
  match fields.lookup e.src with
  | some (some v) => some (formatDotZeroF (v * e.mult))
  | _ => none

/-- The data entries of `format_url`'s `values` dict: for each map entry
whose source field is present and non-null in the record, the value times
the multiplier, formatted with the entry's `'%.0f'`. -/
def dataPairs (fields : Record) : List (String × String) :=
  dataMap.filterMap (fun e => (dataVal fields e).map (fun s => (e.wire, s)))

/-- `format_url`'s complete `values` dict in iteration order. -/
def formatUrlValues (ver id key : String) (dt : ℤ) (fields : Record) :
    List (String × String) :=
  headerPairs ver id key dt ++ dataPairs fields

/-- `urllib.parse.urlencode` joins `quote_plus(k)=quote_plus(v)` pairs
with `&`. -/
def joinAmp : List (List Char) → List Char
  | [] => []
  | [x] => x
  | x :: xs => x ++ '&' :: joinAmp xs

/-- One encoded `k=v` pair of `urlencode`. -/
def encodePair (p : String × String) : List Char :=
  percentEncode p.1.data ++ '=' :: percentEncode p.2.data

/-- The encoded query string of `urlencode(values)`. -/
def queryChars (values : List (String × String)) : List Char :=
  joinAmp (values.map encodePair)

/-- `WeatherCloudThread._SERVER_URL` (the default server url). -/
def serverUrl : String := "http://api.weathercloud.net/v01/set"

/-- The url assembled by `format_url`:
`self.server_url + '?' + urlencode(values)` with the default server url. -/
def urlString (ver id key : String) (dt : ℤ) (fields : Record) : String :=
  ⟨serverUrl.data ++ '?' :: queryChars (formatUrlValues ver id key dt fields)⟩

/-- The scanner of `re.sub(r"key=[^\&]*", "key=XXX", url)`: leftmost
non-overlapping matches of `key=` followed by a maximal `&`-free run, each
replaced by `key=XXX`. -/
def redactAux : List Char → List Char
  | [] => []
  | c :: rest =>
    if c = 'k' ∧ rest.take 3 = ['e', 'y', '='] then
      'k' :: 'e' :: 'y' :: '=' :: 'X' :: 'X' :: 'X' ::
        redactAux ((rest.drop 3).dropWhile (· ≠ '&'))
    else c :: redactAux rest
termination_by l => l.length
decreasing_by
  · have h1 := dropWhile_length_le (fun c => decide (c ≠ '&')) (rest.drop 3)
    simp only [List.length_drop] at h1
    simp only [List.length_cons]
    omega
  · simp

/-- The string written to the debug log by `format_url` when `debug >= 2`:
the url with the `key=...` parameter redacted. -/
def redactString (s : String) : String := ⟨redactAux s.data⟩

/-- Whether the four-character pattern `key=` occurs anywhere in `l`. -/
def hasKeyEq : List Char → Bool
  | [] => false
  | c :: rest => (decide (c = 'k') && decide (rest.take 3 = ['e', 'y', '='])) || hasKeyEq rest

/-- Whether `pat` occurs as a contiguous substring of `l`. -/
def occursIn (pat : List Char) : List Char → Bool
  | [] => decide (pat = [])
  | c :: rest => decide ((c :: rest).take pat.length = pat) || occursIn pat rest

/-- The restful configuration entries the service constructor inspects. -/
structure WCConfig where
  id : Option String
  key : Option String

/-- Modelled from the spec: `weewx.restx.get_site_dict` (external host
code) returns the site options when both `id` and `key` are configured,
and `None` (after logging that data will not be posted) when either is
missing. -/
def getSiteDict (cfg : WCConfig) : Option (String × String) :=
  match cfg.id, cfg.key with
  | some i, some k => some (i, k)
  | _, _ => none

/-- What `WeatherCloud.__init__` has created by the time it returns:
whether the upload thread was constructed and started, and whether the
`NEW_ARCHIVE_RECORD` event was bound. -/
structure ServiceState where
  threadStarted : Bool
  boundNewArchiveRecord : Bool
deriving DecidableEq, Repr

/-- `WeatherCloud.__init__`, lines 138-157: fetch the site dict; if it is
`None` return immediately (nothing created, nothing bound); otherwise
create and start the upload thread and bind the new-archive-record event. -/
def weatherCloudInit (cfg : WCConfig) : ServiceState :=
  match getSiteDict cfg with
  | none => { threadStarted := false, boundNewArchiveRecord := false }
  | some _ => { threadStarted := true, boundNewArchiveRecord := true }

/-! ## Association-list lookup lemmas -/

theorem lookup_cons_self {β : Type} (k : String) (v : β) (l : List (String × β)) :
    ((k, v) :: l).lookup k = some v := by
  simp [List.lookup]

theorem lookup_cons_ne {β : Type} {k a : String} (h : k ≠ a) (v : β)
    (l : List (String × β)) : ((a, v) :: l).lookup k = l.lookup k := by
  simp only [List.lookup]
  rw [beq_false_of_ne h]

theorem lookup_setk_self (rec : Record) (k : String) (v : Option ℚ) :
    (setk rec k v).lookup k = some v := lookup_cons_self k v rec

theorem lookup_setk_ne {k' k : String} (h : k' ≠ k) (rec : Record) (v : Option ℚ) :
    (setk rec k v).lookup k' = rec.lookup k' := lookup_cons_ne h v rec

theorem lookup_normalizeDirAt_ne {k' k : String} (h : k' ≠ k) (rec : Record) :
    (normalizeDirAt rec k).lookup k' = rec.lookup k' := by
  unfold normalizeDirAt
  rcases hm : rec.lookup k with _ | (_ | d)
  · rfl
  · rfl
  · by_cases hd : d > 359
    · simp [hd, lookup_setk_ne h]
    · simp [hd]

theorem lookup_normalizeDirAt_isSome (rec : Record) (k : String) :
    ((normalizeDirAt rec k).lookup k).isSome = (rec.lookup k).isSome := by
  unfold normalizeDirAt
  rcases hm : rec.lookup k with _ | (_ | d)
  · simp [hm]
  · simp [hm]
  · by_cases hd : d > 359
    · simp [hd, lookup_setk_self, hm]
    · simp [hd, hm]

/-! ## Claim theorems: battery inversion, unit conversion, windowed
aggregates, service construction -/

/-- C6: battery-status inversion maps 0 to 1, 1 to 0 and null to null, and
is involutive on {0,1}. -/
theorem battery_inversion_involutive :
    _invert (some 0) = some 1 ∧ _invert (some 1) = some 0 ∧ _invert none = none ∧
    ∀ x : ℚ, x = 0 ∨ x = 1 → _invert (_invert (some x)) = some x := by
  refine ⟨by norm_num [_invert], by norm_num [_invert], rfl, ?_⟩
  rintro x (rfl | rfl) <;> norm_num [_invert]

/-- Witness for C6: the involution evaluated at the concrete status 0. -/
theorem battery_inversion_involutive_witness :
    _invert (_invert (some 0)) = some 0 :=
  battery_inversion_involutive.2.2.2 0 (Or.inl rfl)

/-- C10: inversion is total on non-null inputs: 0 maps to 1 and every
other value (2, 0.5, ...) collapses to 0, the remote fault code. -/
theorem battery_inversion_total (x : ℚ) :
    _invert (some x) = some (if x = 0 then 1 else 0) := by
  by_cases h : x = 0 <;> simp [_invert, h]

/-- C5: `_convert_windspeed` propagates a null value as null for every
source unit system (absence propagates: the METRICWX branch returns it
unchanged, any other system's conversion propagates null per the spec),
and when the source system is already METRICWX it is the identity on
every value. -/
theorem convert_windspeed_canonical :
    (∀ s : Option ℕ, _convert_windspeed none s = .ok none) ∧
    ∀ v : Option ℚ, _convert_windspeed v (some usMETRICWX) = .ok v := by
  constructor
  · intro s
    cases s with
    | none => rfl
    | some u =>
      rw [_convert_windspeed]
      by_cases hu : u ≠ usMETRICWX
      · rw [if_pos hu]
      · rw [if_neg hu]
  · intro v
    simp [_convert_windspeed]

/-- C7: each of the three windowed aggregates returns null — not zero and
not an error — whenever the window `(ts-interval, ts]` selects no rows. -/
theorem windowed_aggregates_empty (store : List Row) (ts interval : ℤ)
    (h : ∀ r ∈ store, ¬(ts - interval < r.dateTime ∧ r.dateTime ≤ ts)) :
    _get_windavg store ts interval = none ∧
    _get_windhi store ts interval = none ∧
    _get_winddiravg store ts interval = none := by
  have hw : windowRows store ts interval = [] := by
    rw [windowRows, List.filter_eq_nil_iff]
    intro r hr
    simpa using h r hr
  simp [_get_windavg, _get_windhi, _get_winddiravg, hw, sqlAvg, sqlMax]

/-- Witness for C7: a store whose only row lies outside the window. -/
theorem windowed_aggregates_empty_witness :
    _get_windavg [⟨5000, some 1, some 2, some 3⟩] 1000 600 = none ∧
    _get_windhi [⟨5000, some 1, some 2, some 3⟩] 1000 600 = none ∧
    _get_winddiravg [⟨5000, some 1, some 2, some 3⟩] 1000 600 = none :=
  windowed_aggregates_empty [⟨5000, some 1, some 2, some 3⟩] 1000 600 (by decide)

/-- C2: on a row where the hardware reports a wind speed but no gust
(`windGust` NULL), the SQL CASE comparison is NULL, so the ELSE branch
returns the NULL `windGust` and the row contributes nothing: `_get_windhi`
is NULL although the documented aggregate ("a row in which the hardware
reports only one of the two quantities still contributes the reported
one", matching the code's own comment "some hardware reports a wind gust,
others do not, so try to deal with both") yields 5. -/
theorem windhi_drops_speed_only_rows :
    _get_windhi [⟨100, some 5, none, none⟩] 100 600 = none ∧
    windowedMaxGust_spec [⟨100, some 5, none, none⟩] 100 600 = some 5 := by
  constructor <;> rfl

/-- C8: with the account id or key missing from the configuration, the
constructor returns without starting the upload thread and without binding
the new-archive-record event. -/
theorem missing_credentials_no_start (cfg : WCConfig)
    (h : cfg.id = none ∨ cfg.key = none) :
    weatherCloudInit cfg = ⟨false, false⟩ := by
  rcases cfg with ⟨i, k⟩
  rcases h with h | h
  · cases h; rfl
  · cases h; cases i <;> rfl

/-- Witness for C8: a configuration with the id missing. -/
theorem missing_credentials_no_start_witness :
    weatherCloudInit ⟨none, some "k"⟩ = ⟨false, false⟩ :=
  missing_credentials_no_start ⟨none, some "k"⟩ (Or.inl rfl)

/-! ## C1: the encoded payload contains a wire key iff its source field is
present and non-null -/

theorem lookup_append_of_none {β : Type} {l₁ : List (String × β)} {k : String}
    (l₂ : List (String × β)) (h : l₁.lookup k = none) :
    (l₁ ++ l₂).lookup k = l₂.lookup k := by
  induction l₁ with
  | nil => rfl
  | cons p t ih =>
    obtain ⟨a, b⟩ := p
    by_cases hk : k = a
    · subst hk
      rw [lookup_cons_self] at h
      cases h
    · rw [List.cons_append, lookup_cons_ne hk]
      rw [lookup_cons_ne hk] at h
      exact ih h

theorem lookup_entries_not_mem (f : DataEntry → Option String) (k : String) :
    ∀ l : List DataEntry, k ∉ l.map (·.wire) →
      (l.filterMap (fun e => (f e).map (fun s => (e.wire, s)))).lookup k = none := by
  intro l
  induction l with
  | nil => intro _; rfl
  | cons a t ih =>
    intro hk
    simp only [List.map_cons, List.mem_cons, not_or] at hk
    obtain ⟨h1, h2⟩ := hk
    rw [List.filterMap_cons]
    cases hfa : f a with
    | none => simpa using ih h2
    | some s =>
      simp only [Option.map_some']
      rw [lookup_cons_ne h1]
      exact ih h2

theorem lookup_entries (f : DataEntry → Option String) (e : DataEntry) :
    ∀ l : List DataEntry, (l.map (·.wire)).Nodup → e ∈ l →
      (l.filterMap (fun e' => (f e').map (fun s => (e'.wire, s)))).lookup e.wire = f e := by
  intro l
  induction l with
  | nil => intro _ he; cases he
  | cons a t ih =>
    intro hnd he
    simp only [List.map_cons, List.nodup_cons] at hnd
    obtain ⟨ha, hnd'⟩ := hnd
    rcases List.mem_cons.mp he with rfl | he'
    · cases hfa : f e with
      | none =>
        rw [List.filterMap_cons, hfa]
        exact lookup_entries_not_mem f e.wire t ha
      | some s =>
        rw [List.filterMap_cons, hfa]
        exact lookup_cons_self e.wire s _
    · have hne : e.wire ≠ a.wire := fun hc => ha (hc ▸ List.mem_map_of_mem (·.wire) he')
      cases hfa : f a with
      | none =>
        rw [List.filterMap_cons, hfa]
        exact ih hnd' he'
      | some s =>
        have hstep : (a :: t).filterMap (fun e' => (f e').map (fun s => (e'.wire, s))) =
            (a.wire, s) :: t.filterMap (fun e' => (f e').map (fun s => (e'.wire, s))) := by
          rw [List.filterMap_cons, hfa]
          rfl
        rw [hstep, lookup_cons_ne hne]
        exact ih hnd' he'

theorem round_rat_eq (q : ℚ) (n : ℤ) (h : q = n) : round q = n := by
  rw [h, round_intCast]

theorem formatDotZeroF_eq (q : ℚ) (n : ℤ) (h : round q = n) :
    formatDotZeroF q = ⟨intToChars n⟩ := by
  rw [formatDotZeroF, h]

theorem lookup_formatUrlValues (ver id key : String) (dt : ℤ) (fields : Record)
    (e : DataEntry) (he : e ∈ dataMap) :
    (formatUrlValues ver id key dt fields).lookup e.wire = dataVal fields e := by
  have hall : ∀ e' ∈ dataMap, e'.wire ≠ "ver" ∧ e'.wire ≠ "type" ∧ e'.wire ≠ "wid" ∧
      e'.wire ≠ "key" ∧ e'.wire ≠ "time" ∧ e'.wire ≠ "date" := by decide
  obtain ⟨h1, h2, h3, h4, h5, h6⟩ := hall e he
  have hhdr : (headerPairs ver id key dt).lookup e.wire = none := by
    rw [headerPairs, lookup_cons_ne h1, lookup_cons_ne h2, lookup_cons_ne h3,
      lookup_cons_ne h4, lookup_cons_ne h5, lookup_cons_ne h6]
    rfl
  have hnd : (dataMap.map (·.wire)).Nodup := by decide
  rw [formatUrlValues, lookup_append_of_none _ hhdr, dataPairs,
    lookup_entries (dataVal fields) e dataMap hnd he]

/-- C1: for every record and every entry of the field-mapping table, the
encoded payload contains the entry's wire key iff the source field is
present in the record with a non-null value, and in that case the payload
value is the source value times the entry's multiplier formatted with
`'%.0f'`; a null or absent source field leaves the wire key out entirely. -/
theorem payload_field_mapping (ver id key : String) (dt : ℤ) (fields : Record)
    (e : DataEntry) (he : e ∈ dataMap) :
    (formatUrlValues ver id key dt fields).lookup e.wire =
      match fields.lookup e.src with
      | some (some v) => some (formatDotZeroF (v * e.mult))
      | _ => none :=
  lookup_formatUrlValues ver id key dt fields e he

/-- Witness for C1: the spec's scenario — `outTemp` 21.5 °C with
multiplier 10 encodes as the wire pair `temp=215`. -/
theorem payload_field_mapping_witness :
    (formatUrlValues "3" "i" "k" 0 [("outTemp", some (43 / 2))]).lookup "temp" =
      some "215" := by
  have h : (formatUrlValues "3" "i" "k" 0 [("outTemp", some (43 / 2))]).lookup "temp" =
      match List.lookup "outTemp" [("outTemp", some ((43 : ℚ) / 2))] with
      | some (some v) => some (formatDotZeroF (v * 10))
      | _ => none :=
    payload_field_mapping "3" "i" "k" 0 [("outTemp", some (43 / 2))]
      ⟨"temp", "outTemp", "%.0f", 10⟩ (by decide)
  rw [h, lookup_cons_self]
  show some (formatDotZeroF ((43 / 2 : ℚ) * 10)) = some "215"
  rw [formatDotZeroF_eq _ 215 (round_rat_eq _ 215 (by norm_num))]
  decide

/-! ## C4: wind-direction normalization -/

/-- C4 counterexample: the claim asserts the normalized value lies in
[0,359] for every direction in [0,719), but wind directions are not
integers (`winddiravg` is an SQL AVG): 359.5 lies in [0,719) yet
normalization leaves it alone — wait, 359.5 > 359, so 360 is subtracted,
giving -0.5, which is below 0. -/
theorem normalize_dir_fractional :
    (0 ≤ (719 / 2 : ℚ) ∧ (719 / 2 : ℚ) < 719) ∧
    normalizeDir (719 / 2) = -(1 / 2) ∧ ¬(0 ≤ normalizeDir (719 / 2)) := by
  have h : normalizeDir (719 / 2 : ℚ) = -(1 / 2) := by
    rw [normalizeDir, if_pos (by norm_num)]
    norm_num
  refine ⟨⟨by norm_num, by norm_num⟩, h, by rw [h]; norm_num⟩

/-- C4 (amended): normalization subtracts 360 exactly once from a value
greater than 359 and leaves other values unchanged; every d in [0,719)
that is ≤ 359 or ≥ 360 (in particular every integer in [0,719)) lands in
[0,359] — fractional values in (359,360) land in (-1,0) instead;
normalization is idempotent on its output range [0,359]; and a record with
windDir 370 encodes as wdir=10 through `get_record` and the payload. -/
theorem normalize_dir_amended :
    (∀ d : ℚ, 359 < d → normalizeDir d = d - 360) ∧
    (∀ d : ℚ, d ≤ 359 → normalizeDir d = d) ∧
    (∀ d : ℚ, 0 ≤ d → d < 719 → d ≤ 359 ∨ 360 ≤ d →
      0 ≤ normalizeDir d ∧ normalizeDir d ≤ 359) ∧
    (∀ d : ℚ, 0 ≤ d → d ≤ 359 → normalizeDir (normalizeDir d) = normalizeDir d) ∧
    (get_record (fun a b => a + b) (fun a b => a - b) [("windDir", some 370)]
        ⟨0, some usMETRICWX, []⟩ []).map
      (fun r => (formatUrlValues "3" "i" "k" 0 r).lookup "wdir") = .ok (some "10") := by
  refine ⟨?_, ?_, ?_, ?_, ?_⟩
  · intro d h
    rw [normalizeDir, if_pos h]
  · intro d h
    rw [normalizeDir, if_neg (not_lt.mpr h)]
  · intro d h0 h719 hd
    rw [normalizeDir]
    by_cases h : (359 : ℚ) < d
    · rw [if_pos h]
      rcases hd with hd | hd
      · exact absurd h (not_lt.mpr hd)
      · exact ⟨by linarith, by linarith⟩
    · rw [if_neg h]
      exact ⟨h0, le_of_not_lt h⟩
  · intro d h0 h359
    have h1 : normalizeDir d = d := by rw [normalizeDir, if_neg (not_lt.mpr h359)]
    rw [h1, h1]
  · have h370 : normalizeDir 370 = (10 : ℚ) := by
      rw [normalizeDir, if_pos (by norm_num)]
      norm_num
    have hrec : get_record (fun a b => a + b) (fun a b => a - b) [("windDir", some 370)]
        ⟨0, some usMETRICWX, []⟩ [] =
        .ok [("windhi", none), ("windavg", none), ("windDir", some (normalizeDir 370)),
             ("winddiravg", none), ("windhi", none), ("windavg", none),
             ("windDir", some 370)] := rfl
    rw [hrec]
    have hw : (formatUrlValues "3" "i" "k" 0
          [("windhi", none), ("windavg", none), ("windDir", some (normalizeDir 370)),
           ("winddiravg", none), ("windhi", none), ("windavg", none),
           ("windDir", some 370)]).lookup "wdir" =
        dataVal [("windhi", none), ("windavg", none), ("windDir", some (normalizeDir 370)),
           ("winddiravg", none), ("windhi", none), ("windavg", none),
           ("windDir", some 370)] ⟨"wdir", "windDir", "%.0f", 1⟩ :=
      lookup_formatUrlValues "3" "i" "k" 0 _ ⟨"wdir", "windDir", "%.0f", 1⟩ (by decide)
    have hdv : dataVal [("windhi", none), ("windavg", none),
          ("windDir", some (normalizeDir 370)), ("winddiravg", none), ("windhi", none),
          ("windavg", none), ("windDir", some 370)] ⟨"wdir", "windDir", "%.0f", 1⟩ =
        some (formatDotZeroF (normalizeDir 370 * 1)) := rfl
    have hfmt : formatDotZeroF (normalizeDir 370 * 1) = "10" := by
      rw [h370, formatDotZeroF_eq _ 10 (round_rat_eq _ 10 (by norm_num))]
      decide
    show Except.ok ((formatUrlValues "3" "i" "k" 0 _).lookup "wdir") = _
    rw [hw, hdv, hfmt]

/-- Witness for C4: normalization applied to the concrete direction 370. -/
theorem normalize_dir_amended_witness : normalizeDir 370 = 10 := by
  have h := normalize_dir_amended.1 370 (by norm_num)
  rw [h]
  norm_num

/-! ## C3: secondary computed fields -/

theorem lookup_batStep_ne {k' b : String} (h : k' ≠ b) (fields : Record)
    (s : String) (rec : Record) : (batStep fields s b rec).lookup k' = rec.lookup k' := by
  unfold batStep
  cases fields.lookup s with
  | none => rfl
  | some o => exact lookup_setk_ne h rec (_invert o)

theorem lookup_batStep_self (fields : Record) (s b : String) (rec : Record) :
    (batStep fields s b rec).lookup b =
      match fields.lookup s with
      | some o => some (_invert o)
      | none => rec.lookup b := by
  unfold batStep
  cases fields.lookup s with
  | none => rfl
  | some o => exact lookup_setk_self rec b (_invert o)

theorem lookup_indoorStep_ne {k' : String} (h1 : k' ≠ "inheatindex")
    (h2 : k' ≠ "indewpoint") (hiK dpK : ℚ → ℚ → ℚ) (rec : Record) :
    (indoorStep hiK dpK rec).lookup k' = rec.lookup k' := by
  unfold indoorStep
  split
  · rw [lookup_setk_ne h2, lookup_setk_ne h1]
  · rfl

theorem lookup_indoorStep_inheat (hiK dpK : ℚ → ℚ → ℚ) (rec : Record) :
    (indoorStep hiK dpK rec).lookup "inheatindex" =
      if (rec.lookup "inTemp").isSome ∧ (rec.lookup "inHumidity").isSome then
        some (heatindexC hiK (pyGet rec "inTemp") (pyGet rec "inHumidity"))
      else rec.lookup "inheatindex" := by
  unfold indoorStep
  split
  · rw [lookup_setk_ne (by decide : "inheatindex" ≠ "indewpoint"), lookup_setk_self]
  · rfl

theorem lookup_indoorStep_indew (hiK dpK : ℚ → ℚ → ℚ) (rec : Record) :
    (indoorStep hiK dpK rec).lookup "indewpoint" =
      if (rec.lookup "inTemp").isSome ∧ (rec.lookup "inHumidity").isSome then
        some (dewpointC dpK (pyGet rec "inTemp") (pyGet rec "inHumidity"))
      else rec.lookup "indewpoint" := by
  unfold indoorStep
  split
  · rw [lookup_setk_self]
  · rfl

theorem lookup_grPost_ne {k' : String} (h1 : k' ≠ "inheatindex") (h2 : k' ≠ "indewpoint")
    (h3 : k' ≠ "bat01") (h4 : k' ≠ "bat02") (h5 : k' ≠ "bat03") (h6 : k' ≠ "bat04")
    (h7 : k' ≠ "bat05") (hiK dpK : ℚ → ℚ → ℚ) (fields rec : Record) :
    (grPost hiK dpK fields rec).lookup k' = rec.lookup k' := by
  unfold grPost
  rw [lookup_batStep_ne h7, lookup_batStep_ne h6, lookup_batStep_ne h5,
    lookup_batStep_ne h4, lookup_batStep_ne h3, lookup_indoorStep_ne h1 h2]

theorem lookup_normalizeDirAt_null {rec : Record} {k : String}
    (h : rec.lookup k = some none) : (normalizeDirAt rec k).lookup k = some none := by
  unfold normalizeDirAt
  rw [h]
  exact h

theorem lookup_grPre_windavg (store : List Row) (ts : ℤ) (rec0 : Record) :
    (grPre store ts rec0).lookup "windavg" = some (_get_windavg store ts) := by
  unfold grPre
  rw [lookup_normalizeDirAt_ne (by decide), lookup_normalizeDirAt_ne (by decide),
    lookup_setk_ne (by decide), lookup_setk_ne (by decide), lookup_setk_self]

theorem lookup_grPre_windhi (store : List Row) (ts : ℤ) (rec0 : Record) :
    (grPre store ts rec0).lookup "windhi" = some (_get_windhi store ts) := by
  unfold grPre
  rw [lookup_normalizeDirAt_ne (by decide), lookup_normalizeDirAt_ne (by decide),
    lookup_setk_ne (by decide), lookup_setk_self]

theorem lookup_grPre_winddiravg_isSome (store : List Row) (ts : ℤ) (rec0 : Record) :
    ((grPre store ts rec0).lookup "winddiravg").isSome = true := by
  unfold grPre
  rw [lookup_normalizeDirAt_isSome, lookup_normalizeDirAt_ne (by decide),
    lookup_setk_self]
  rfl

theorem lookup_grPre_winddiravg_null (store : List Row) (ts : ℤ) (rec0 : Record)
    (h : _get_winddiravg store ts = none) :
    (grPre store ts rec0).lookup "winddiravg" = some none := by
  unfold grPre
  apply lookup_normalizeDirAt_null
  rw [lookup_normalizeDirAt_ne (by decide), lookup_setk_self, h]

theorem lookup_grPre_ne {k : String} (h1 : k ≠ "windavg") (h2 : k ≠ "windhi")
    (h3 : k ≠ "winddiravg") (h4 : k ≠ "windDir") (store : List Row) (ts : ℤ)
    (rec0 : Record) : (grPre store ts rec0).lookup k = rec0.lookup k := by
  unfold grPre
  rw [lookup_normalizeDirAt_ne h3, lookup_normalizeDirAt_ne h4,
    lookup_setk_ne h3, lookup_setk_ne h2, lookup_setk_ne h1]

theorem convert_none_ok {s : Option ℕ} {w : Option ℚ}
    (h : _convert_windspeed none s = .ok w) : w = none := by
  cases s with
  | none => cases h; rfl
  | some u =>
    rw [_convert_windspeed] at h
    by_cases hu : u ≠ usMETRICWX
    · rw [if_pos hu] at h
      cases h
      rfl
    · rw [if_neg hu] at h
      cases h
      rfl

theorem lookup_R7_other {k : String} (h1 : k ≠ "windavg") (h2 : k ≠ "windhi")
    (h3 : k ≠ "winddiravg") (h4 : k ≠ "windDir") (store : List Row) (ts : ℤ)
    (rec0 : Record) (wa wh : Option ℚ) :
    (setk (setk (grPre store ts rec0) "windavg" wa) "windhi" wh).lookup k =
      rec0.lookup k := by
  rw [lookup_setk_ne h2, lookup_setk_ne h1, lookup_grPre_ne h1 h2 h3 h4]

/-- C3 counterexample: on a record with no `inTemp`, the derived record
leaves the indoor heat index key out entirely (lookup is `none`, i.e. the
key is absent) instead of setting it to an explicit null (`some none`):
the claim's "every secondary field populated or explicitly null" fails. -/
theorem secondary_fields_absent :
    (get_record (fun a b => a + b) (fun a b => a - b) [] ⟨1000, some usMETRICWX, []⟩
        []).map (fun r => r.lookup "inheatindex") = .ok none := rfl

/-- C3 (amended): `windavg`, `windhi` and `winddiravg` are always
explicitly present (possibly null); the indoor heat index and dew point
are present exactly when both `inTemp` and `inHumidity` are present in the
base record, and each battery flag exactly when its source status is
present in the raw record (provided the base record does not already carry
one of the computed field names, which no archive record does); and every
secondary field that is computed is explicitly null whenever any of its
inputs is null. -/
theorem secondary_fields_amended (hiK dpK : ℚ → ℚ → ℚ) (rec0 : Record)
    (record : ArchiveRecord) (store : List Row) (rec : Record)
    (hclean : ∀ k ∈ (["windavg", "windhi", "winddiravg", "inheatindex", "indewpoint",
        "bat01", "bat02", "bat03", "bat04", "bat05"] : List String),
      rec0.lookup k = none)
    (h : get_record hiK dpK rec0 record store = .ok rec) :
    ((rec.lookup "windavg").isSome ∧ (rec.lookup "windhi").isSome ∧
      (rec.lookup "winddiravg").isSome) ∧
    ((rec.lookup "inheatindex").isSome ↔
      (rec0.lookup "inTemp").isSome ∧ (rec0.lookup "inHumidity").isSome) ∧
    ((rec.lookup "indewpoint").isSome ↔
      (rec0.lookup "inTemp").isSome ∧ (rec0.lookup "inHumidity").isSome) ∧
    ((rec.lookup "bat01").isSome ↔ (record.fields.lookup "txBatteryStatus").isSome) ∧
    ((rec.lookup "bat02").isSome ↔ (record.fields.lookup "windBatteryStatus").isSome) ∧
    ((rec.lookup "bat03").isSome ↔ (record.fields.lookup "rainBatteryStatus").isSome) ∧
    ((rec.lookup "bat04").isSome ↔ (record.fields.lookup "outTempBatteryStatus").isSome) ∧
    ((rec.lookup "bat05").isSome ↔ (record.fields.lookup "inTempBatteryStatus").isSome) ∧
    (rec0.lookup "inTemp" = some none → (rec0.lookup "inHumidity").isSome →
      rec.lookup "inheatindex" = some none ∧ rec.lookup "indewpoint" = some none) ∧
    ((rec0.lookup "inTemp").isSome → rec0.lookup "inHumidity" = some none →
      rec.lookup "inheatindex" = some none ∧ rec.lookup "indewpoint" = some none) ∧
    (record.fields.lookup "txBatteryStatus" = some none →
      rec.lookup "bat01" = some none) ∧
    (record.fields.lookup "windBatteryStatus" = some none →
      rec.lookup "bat02" = some none) ∧
    (record.fields.lookup "rainBatteryStatus" = some none →
      rec.lookup "bat03" = some none) ∧
    (record.fields.lookup "outTempBatteryStatus" = some none →
      rec.lookup "bat04" = some none) ∧
    (record.fields.lookup "inTempBatteryStatus" = some none →
      rec.lookup "bat05" = some none) ∧
    (_get_windavg store record.dateTime = none → rec.lookup "windavg" = some none) ∧
    (_get_windhi store record.dateTime = none → rec.lookup "windhi" = some none) ∧
    (_get_winddiravg store record.dateTime = none →
      rec.lookup "winddiravg" = some none) := by
  simp only [get_record] at h
  cases hc1 : _convert_windspeed (pyGet (grPre store record.dateTime rec0) "windavg")
      record.usUnits with
  | error e =>
    rw [hc1] at h
    simp [Bind.bind, Except.bind] at h
  | ok wa =>
  rw [hc1] at h
  simp only [Bind.bind, Except.bind] at h
  cases hc2 : _convert_windspeed
      (pyGet (setk (grPre store record.dateTime rec0) "windavg" wa) "windhi")
      record.usUnits with
  | error e =>
    rw [hc2] at h
    simp [Except.bind] at h
  | ok wh =>
  rw [hc2] at h
  simp only [Except.bind, pure, Except.pure, Except.ok.injEq] at h
  subst h
  -- frequently used lookups of the intermediate record
  have hInT : (setk (setk (grPre store record.dateTime rec0) "windavg" wa) "windhi"
      wh).lookup "inTemp" = rec0.lookup "inTemp" :=
    lookup_R7_other (by decide) (by decide) (by decide) (by decide) _ _ _ _ _
  have hInH : (setk (setk (grPre store record.dateTime rec0) "windavg" wa) "windhi"
      wh).lookup "inHumidity" = rec0.lookup "inHumidity" :=
    lookup_R7_other (by decide) (by decide) (by decide) (by decide) _ _ _ _ _
  refine ⟨⟨?_, ?_, ?_⟩, ?_, ?_, ?_, ?_, ?_, ?_, ?_, ?_, ?_, ?_, ?_, ?_, ?_, ?_, ?_, ?_, ?_⟩
  -- windavg present
  · rw [lookup_grPost_ne (by decide) (by decide) (by decide) (by decide) (by decide)
      (by decide) (by decide), lookup_setk_ne (by decide), lookup_setk_self]
    rfl
  -- windhi present
  · rw [lookup_grPost_ne (by decide) (by decide) (by decide) (by decide) (by decide)
      (by decide) (by decide), lookup_setk_self]
    rfl
  -- winddiravg present
  · rw [lookup_grPost_ne (by decide) (by decide) (by decide) (by decide) (by decide)
      (by decide) (by decide), lookup_setk_ne (by decide), lookup_setk_ne (by decide)]
    exact lookup_grPre_winddiravg_isSome store record.dateTime rec0
  -- inheatindex iff
  · unfold grPost; rw [lookup_batStep_ne (by decide), lookup_batStep_ne (by decide),
      lookup_batStep_ne (by decide), lookup_batStep_ne (by decide),
      lookup_batStep_ne (by decide), lookup_indoorStep_inheat, hInT, hInH]
    by_cases hcond : (rec0.lookup "inTemp").isSome ∧ (rec0.lookup "inHumidity").isSome
    · rw [if_pos hcond]
      simpa using hcond
    · rw [if_neg hcond, lookup_R7_other (by decide) (by decide) (by decide) (by decide),
        hclean "inheatindex" (by decide)]
      simpa using hcond
  -- indewpoint iff
  · unfold grPost; rw [lookup_batStep_ne (by decide), lookup_batStep_ne (by decide),
      lookup_batStep_ne (by decide), lookup_batStep_ne (by decide),
      lookup_batStep_ne (by decide), lookup_indoorStep_indew, hInT, hInH]
    by_cases hcond : (rec0.lookup "inTemp").isSome ∧ (rec0.lookup "inHumidity").isSome
    · rw [if_pos hcond]
      simpa using hcond
    · rw [if_neg hcond, lookup_R7_other (by decide) (by decide) (by decide) (by decide),
        hclean "indewpoint" (by decide)]
      simpa using hcond
  -- bat01 iff
  · unfold grPost; rw [lookup_batStep_ne (by decide), lookup_batStep_ne (by decide),
      lookup_batStep_ne (by decide), lookup_batStep_ne (by decide), lookup_batStep_self]
    cases hb : record.fields.lookup "txBatteryStatus" with
    | some o => simp
    | none =>
      rw [lookup_indoorStep_ne (by decide) (by decide),
        lookup_R7_other (by decide) (by decide) (by decide) (by decide),
        hclean "bat01" (by decide)]
  -- bat02 iff
  · unfold grPost; rw [lookup_batStep_ne (by decide), lookup_batStep_ne (by decide),
      lookup_batStep_ne (by decide), lookup_batStep_self]
    cases hb : record.fields.lookup "windBatteryStatus" with
    | some o => simp
    | none =>
      rw [lookup_batStep_ne (by decide), lookup_indoorStep_ne (by decide) (by decide),
        lookup_R7_other (by decide) (by decide) (by decide) (by decide),
        hclean "bat02" (by decide)]
  -- bat03 iff
  · unfold grPost; rw [lookup_batStep_ne (by decide), lookup_batStep_ne (by decide),
      lookup_batStep_self]
    cases hb : record.fields.lookup "rainBatteryStatus" with
    | some o => simp
    | none =>
      rw [lookup_batStep_ne (by decide), lookup_batStep_ne (by decide),
        lookup_indoorStep_ne (by decide) (by decide),
        lookup_R7_other (by decide) (by decide) (by decide) (by decide),
        hclean "bat03" (by decide)]
  -- bat04 iff
  · unfold grPost; rw [lookup_batStep_ne (by decide), lookup_batStep_self]
    cases hb : record.fields.lookup "outTempBatteryStatus" with
    | some o => simp
    | none =>
      rw [lookup_batStep_ne (by decide), lookup_batStep_ne (by decide),
        lookup_batStep_ne (by decide), lookup_indoorStep_ne (by decide) (by decide),
        lookup_R7_other (by decide) (by decide) (by decide) (by decide),
        hclean "bat04" (by decide)]
  -- bat05 iff
  · unfold grPost; rw [lookup_batStep_self]
    cases hb : record.fields.lookup "inTempBatteryStatus" with
    | some o => simp
    | none =>
      rw [lookup_batStep_ne (by decide), lookup_batStep_ne (by decide),
        lookup_batStep_ne (by decide), lookup_batStep_ne (by decide),
        lookup_indoorStep_ne (by decide) (by decide),
        lookup_R7_other (by decide) (by decide) (by decide) (by decide),
        hclean "bat05" (by decide)]
  -- indoor null propagation: inTemp null
  · intro hT hH
    have hcond : ((setk (setk (grPre store record.dateTime rec0) "windavg" wa) "windhi"
        wh).lookup "inTemp").isSome ∧
        ((setk (setk (grPre store record.dateTime rec0) "windavg" wa) "windhi"
        wh).lookup "inHumidity").isSome := by
      rw [hInT, hInH, hT]
      exact ⟨rfl, hH⟩
    constructor
    · unfold grPost; rw [lookup_batStep_ne (by decide), lookup_batStep_ne (by decide),
        lookup_batStep_ne (by decide), lookup_batStep_ne (by decide),
        lookup_batStep_ne (by decide), lookup_indoorStep_inheat, if_pos hcond]
      have hpt : pyGet (setk (setk (grPre store record.dateTime rec0) "windavg" wa)
          "windhi" wh) "inTemp" = none := by rw [pyGet, hInT, hT]; rfl
      rw [hpt]
      cases pyGet (setk (setk (grPre store record.dateTime rec0) "windavg" wa)
          "windhi" wh) "inHumidity" <;> rfl
    · unfold grPost; rw [lookup_batStep_ne (by decide), lookup_batStep_ne (by decide),
        lookup_batStep_ne (by decide), lookup_batStep_ne (by decide),
        lookup_batStep_ne (by decide), lookup_indoorStep_indew, if_pos hcond]
      have hpt : pyGet (setk (setk (grPre store record.dateTime rec0) "windavg" wa)
          "windhi" wh) "inTemp" = none := by rw [pyGet, hInT, hT]; rfl
      rw [hpt]
      cases pyGet (setk (setk (grPre store record.dateTime rec0) "windavg" wa)
          "windhi" wh) "inHumidity" <;> rfl
  -- indoor null propagation: inHumidity null
  · intro hT hH
    have hcond : ((setk (setk (grPre store record.dateTime rec0) "windavg" wa) "windhi"
        wh).lookup "inTemp").isSome ∧
        ((setk (setk (grPre store record.dateTime rec0) "windavg" wa) "windhi"
        wh).lookup "inHumidity").isSome := by
      rw [hInT, hInH, hH]
      exact ⟨hT, rfl⟩
    constructor
    · unfold grPost; rw [lookup_batStep_ne (by decide), lookup_batStep_ne (by decide),
        lookup_batStep_ne (by decide), lookup_batStep_ne (by decide),
        lookup_batStep_ne (by decide), lookup_indoorStep_inheat, if_pos hcond]
      have : pyGet (setk (setk (grPre store record.dateTime rec0) "windavg" wa)
          "windhi" wh) "inHumidity" = none := by rw [pyGet, hInH, hH]; rfl
      rw [this]
      cases pyGet (setk (setk (grPre store record.dateTime rec0) "windavg" wa)
          "windhi" wh) "inTemp" <;> rfl
    · unfold grPost; rw [lookup_batStep_ne (by decide), lookup_batStep_ne (by decide),
        lookup_batStep_ne (by decide), lookup_batStep_ne (by decide),
        lookup_batStep_ne (by decide), lookup_indoorStep_indew, if_pos hcond]
      have : pyGet (setk (setk (grPre store record.dateTime rec0) "windavg" wa)
          "windhi" wh) "inHumidity" = none := by rw [pyGet, hInH, hH]; rfl
      rw [this]
      cases pyGet (setk (setk (grPre store record.dateTime rec0) "windavg" wa)
          "windhi" wh) "inTemp" <;> rfl
  -- bat01 null propagation
  · intro hb
    unfold grPost; rw [lookup_batStep_ne (by decide), lookup_batStep_ne (by decide),
      lookup_batStep_ne (by decide), lookup_batStep_ne (by decide),
      lookup_batStep_self, hb]
    rfl
  -- bat02 null propagation
  · intro hb
    unfold grPost; rw [lookup_batStep_ne (by decide), lookup_batStep_ne (by decide),
      lookup_batStep_ne (by decide), lookup_batStep_self, hb]
    rfl
  -- bat03 null propagation
  · intro hb
    unfold grPost; rw [lookup_batStep_ne (by decide), lookup_batStep_ne (by decide),
      lookup_batStep_self, hb]
    rfl
  -- bat04 null propagation
  · intro hb
    unfold grPost; rw [lookup_batStep_ne (by decide), lookup_batStep_self, hb]
    rfl
  -- bat05 null propagation
  · intro hb
    unfold grPost; rw [lookup_batStep_self, hb]
    rfl
  -- windavg null propagation
  · intro hnone
    have hp : pyGet (grPre store record.dateTime rec0) "windavg" = none := by
      rw [pyGet, lookup_grPre_windavg, hnone]
      rfl
    rw [hp] at hc1
    have := convert_none_ok hc1
    subst this
    rw [lookup_grPost_ne (by decide) (by decide) (by decide) (by decide) (by decide)
      (by decide) (by decide), lookup_setk_ne (by decide), lookup_setk_self]
  -- windhi null propagation
  · intro hnone
    have hp : pyGet (setk (grPre store record.dateTime rec0) "windavg" wa) "windhi" =
        none := by
      rw [pyGet, lookup_setk_ne (by decide), lookup_grPre_windhi, hnone]
      rfl
    rw [hp] at hc2
    have := convert_none_ok hc2
    subst this
    rw [lookup_grPost_ne (by decide) (by decide) (by decide) (by decide) (by decide)
      (by decide) (by decide), lookup_setk_self]
  -- winddiravg null propagation
  · intro hnone
    rw [lookup_grPost_ne (by decide) (by decide) (by decide) (by decide) (by decide)
      (by decide) (by decide), lookup_setk_ne (by decide), lookup_setk_ne (by decide)]
    exact lookup_grPre_winddiravg_null store record.dateTime rec0 hnone

/-- Witness for C3 (amended): a US-units record (non-canonical source
system) with an empty historical window, `inTemp` present-but-null,
`inHumidity` 5 and a null transmitter battery status: `get_record`
succeeds, and `windavg`, the indoor heat index and the `bat01` flag all
come out explicitly null. -/
theorem secondary_fields_amended_witness :
    (([("bat01", none), ("indewpoint", none), ("inheatindex", none), ("windhi", none),
       ("windavg", none), ("winddiravg", none), ("windhi", none), ("windavg", none),
       ("inTemp", none), ("inHumidity", some 5)] : Record).lookup "inheatindex" =
      some none) ∧
    (([("bat01", none), ("indewpoint", none), ("inheatindex", none), ("windhi", none),
       ("windavg", none), ("winddiravg", none), ("windhi", none), ("windavg", none),
       ("inTemp", none), ("inHumidity", some 5)] : Record).lookup "bat01" =
      some none) ∧
    (([("bat01", none), ("indewpoint", none), ("inheatindex", none), ("windhi", none),
       ("windavg", none), ("winddiravg", none), ("windhi", none), ("windavg", none),
       ("inTemp", none), ("inHumidity", some 5)] : Record).lookup "windavg" =
      some none) := by
  have h := secondary_fields_amended (fun a b => a + b) (fun a b => a - b)
    [("inTemp", none), ("inHumidity", some 5)]
    ⟨0, some usUS, [("txBatteryStatus", none)]⟩ []
    [("bat01", none), ("indewpoint", none), ("inheatindex", none), ("windhi", none),
     ("windavg", none), ("winddiravg", none), ("windhi", none), ("windavg", none),
     ("inTemp", none), ("inHumidity", some 5)]
    (by decide) rfl
  obtain ⟨-, -, -, -, -, -, -, -, h9, -, h11, -, -, -, -, h16, -⟩ := h
  exact ⟨(h9 rfl rfl).1, h11 rfl, h16 rfl⟩

/-! ## C9: redaction of the secret key in the debug log -/

theorem encodeChar_ne (c : Char) : ∀ c' ∈ encodeChar c, c' ≠ '=' ∧ c' ≠ '&' := by
  intro c' hc'
  rw [encodeChar] at hc'
  split at hc'
  · rename_i hsafe
    simp only [List.mem_singleton] at hc'
    subst hc'
    constructor
    · intro heq
      rw [heq] at hsafe
      exact absurd hsafe (by decide)
    · intro hamp
      rw [hamp] at hsafe
      exact absurd hsafe (by decide)
  · split at hc'
    · simp only [List.mem_singleton] at hc'
      subst hc'
      decide
    · have hx : ∀ n : ℕ, hexDigitCh n ≠ '=' ∧ hexDigitCh n ≠ '&' := by
        intro n
        match n with
        | 0 | 1 | 2 | 3 | 4 | 5 | 6 | 7 | 8 | 9 | 10 | 11 | 12 | 13 | 14 => decide
        | (m + 15) =>
          have h15 : hexDigitCh (m + 15) = 'F' := rfl
          rw [h15]
          decide
      simp only [List.mem_cons, List.not_mem_nil, or_false] at hc'
      rcases hc' with rfl | rfl | rfl
      · decide
      · exact hx _
      · exact hx _

theorem percentEncode_ne (s : List Char) : ∀ c' ∈ percentEncode s, c' ≠ '=' ∧ c' ≠ '&' := by
  intro c' hc'
  rw [percentEncode] at hc'
  rw [List.mem_flatten] at hc'
  obtain ⟨l, hl, hc'l⟩ := hc'
  rw [List.mem_map] at hl
  obtain ⟨c, _, rfl⟩ := hl
  exact encodeChar_ne c c' hc'l

/-- A list without `'='` cannot contain the pattern `key=`. -/
theorem hasKeyEq_of_noEq {l : List Char} (h : ∀ c ∈ l, c ≠ '=') :
    hasKeyEq l = false := by
  induction l with
  | nil => rfl
  | cons c rest ih =>
    have h1 : ¬(rest.take 3 = ['e', 'y', '=']) := by
      intro hc
      have hmem : '=' ∈ rest := List.take_subset 3 rest (by rw [hc]; decide)
      exact h '=' (List.mem_cons_of_mem c hmem) rfl
    have h2 : hasKeyEq rest = false := ih (fun c' hc' => h c' (List.mem_cons_of_mem c hc'))
    simp [hasKeyEq, h1, h2]

/-- Appending a block whose first three characters are `'='`-free cannot
introduce the pattern `key=` (its last character is `'='`, so a new match
would need an `'='` within three characters of the boundary). -/
theorem hasKeyEq_append {a b : List Char} (ha : hasKeyEq a = false)
    (hb : hasKeyEq b = false) (hb3 : ∀ c ∈ b.take 3, c ≠ '=') :
    hasKeyEq (a ++ b) = false := by
  induction a with
  | nil => simpa using hb
  | cons c a' ih =>
    simp only [hasKeyEq, Bool.or_eq_false_iff, Bool.and_eq_false_iff,
      decide_eq_false_iff_not] at ha
    obtain ⟨hahead, hatail⟩ := ha
    rw [List.cons_append]
    simp only [hasKeyEq, Bool.or_eq_false_iff, Bool.and_eq_false_iff,
      decide_eq_false_iff_not]
    refine ⟨?_, ih hatail⟩
    rcases hahead with hck | htk
    · exact Or.inl hck
    · refine Or.inr (fun hc => ?_)
      by_cases hlen : 3 ≤ a'.length
      · exact htk (by rwa [List.take_append_of_le_length hlen] at hc)
      · push_neg at hlen
        rw [List.take_append_eq_append_take, List.take_of_length_le (le_of_lt hlen)] at hc
        have hsplit : b.take (3 - a'.length) =
            (['e', 'y', '='] : List Char).drop a'.length := by
          rw [← List.take_append_drop a'.length (['e', 'y', '='] : List Char)] at hc
          exact (List.append_inj hc (by simp [List.length_take]; omega)).2
        have h3 : '=' ∈ b.take (3 - a'.length) := by
          rw [hsplit]
          have : a'.length = 0 ∨ a'.length = 1 ∨ a'.length = 2 := by omega
          rcases this with h | h | h <;> rw [h] <;> decide
        have h3' : '=' ∈ b.take 3 := by
          have heq : b.take (3 - a'.length) = (b.take 3).take (3 - a'.length) := by
            rw [List.take_take]
            congr 1
            omega
          rw [heq] at h3
          exact List.take_subset _ _ h3
        exact hb3 '=' h3' rfl

/-- Taking three characters only looks three characters into the suffix. -/
theorem take3_append (p q : List Char) : (p ++ q).take 3 = (p ++ q.take 3).take 3 := by
  rw [List.take_append_eq_append_take, List.take_append_eq_append_take, List.take_take]
  have : min (3 - p.length) 3 = 3 - p.length := by omega
  rw [this]

/-- A pattern-free list is left unchanged by the redaction scanner. -/
theorem redactAux_eq_self {l : List Char} (h : hasKeyEq l = false) :
    redactAux l = l := by
  induction l with
  | nil => simp only [redactAux]
  | cons c rest ih =>
    simp only [hasKeyEq, Bool.or_eq_false_iff, Bool.and_eq_false_iff,
      decide_eq_false_iff_not] at h
    obtain ⟨hhead, htail⟩ := h
    have hcond : ¬(c = 'k' ∧ rest.take 3 = ['e', 'y', '=']) := by
      rcases hhead with h | h
      · exact fun hc => h hc.1
      · exact fun hc => h hc.2
    simp only [redactAux]
    rw [if_neg hcond, ih htail]

/-- The scanner passes over a prefix in which (looking up to three
characters past its end) the pattern never starts. -/
theorem redactAux_skip {p q : List Char} (h : hasKeyEq (p ++ q.take 3) = false) :
    redactAux (p ++ q) = p ++ redactAux q := by
  induction p with
  | nil => rfl
  | cons c p' ih =>
    simp only [List.cons_append, List.append_eq, hasKeyEq, Bool.or_eq_false_iff,
      Bool.and_eq_false_iff, decide_eq_false_iff_not] at h
    obtain ⟨hhead, htail⟩ := h
    have hcond : ¬(c = 'k' ∧ (p' ++ q).take 3 = ['e', 'y', '=']) := by
      rcases hhead with h | h
      · exact fun hc => h hc.1
      · intro hc
        refine h ?_
        rw [← take3_append]
        exact hc.2
    rw [List.cons_append]
    simp only [redactAux]
    rw [if_neg hcond, ih htail]
    rfl

/-- The scanner keeps everything from the first `'&'` on. -/
theorem dropWhile_amp {v : List Char} (h : ∀ c ∈ v, c ≠ '&') (s : List Char) :
    (v ++ '&' :: s).dropWhile (· ≠ '&') = '&' :: s := by
  induction v with
  | nil => simp [List.dropWhile]
  | cons c v' ih =>
    have hc : c ≠ '&' := h c (List.mem_cons_self c v')
    rw [List.cons_append, List.dropWhile]
    simp only [hc, decide_not, decide_eq_true_eq]
    simpa [hc] using ih (fun c' hc' => h c' (List.mem_cons_of_mem c hc'))

/-- The conditions on one encoded `k=v` query segment that prevent it from
containing or completing the pattern `key=`. -/
def goodSeg (x : List Char) : Prop :=
  hasKeyEq x = false ∧ (∀ c ∈ x.take 2, c ≠ '=') ∧ 2 ≤ x.length

theorem hasKeyEq_joinAmp {L : List (List Char)} (h : ∀ x ∈ L, goodSeg x) :
    hasKeyEq (joinAmp L) = false := by
  induction L with
  | nil => rfl
  | cons x L' ih =>
    cases L' with
    | nil => exact (h x (List.mem_cons_self x [])).1
    | cons y L'' =>
      have hx := h x (List.mem_cons_self _ _)
      have hy := h y (List.mem_cons_of_mem _ (List.mem_cons_self _ _))
      have hrest : hasKeyEq (joinAmp (y :: L'')) = false :=
        ih (fun z hz => h z (List.mem_cons_of_mem _ hz))
      have hb : hasKeyEq ('&' :: joinAmp (y :: L'')) = false := by
        simp [hasKeyEq, hrest]
      have htake2 : (joinAmp (y :: L'')).take 2 = y.take 2 := by
        cases L'' with
        | nil => rfl
        | cons z L''' => exact List.take_append_of_le_length hy.2.2
      have hb3 : ∀ c ∈ ('&' :: joinAmp (y :: L'')).take 3, c ≠ '=' := by
        intro c hc
        rw [List.take_succ_cons, htake2] at hc
        rcases List.mem_cons.mp hc with rfl | hc
        · decide
        · exact hy.2.1 c hc
      show hasKeyEq (x ++ '&' :: joinAmp (y :: L'')) = false
      exact hasKeyEq_append hx.1 hb hb3

theorem goodSeg_encodePair (w s : String)
    (h1 : hasKeyEq (percentEncode w.data ++ ['=']) = false)
    (h2 : ∀ c ∈ (percentEncode w.data).take 2, c ≠ '=')
    (h3 : 2 ≤ (percentEncode w.data).length) :
    goodSeg (encodePair (w, s)) := by
  have heq : encodePair (w, s) =
      (percentEncode w.data ++ ['=']) ++ percentEncode s.data := by
    simp [encodePair]
  refine ⟨?_, ?_, ?_⟩
  · rw [heq]
    refine hasKeyEq_append h1 (hasKeyEq_of_noEq ?_) ?_
    · intro c hc
      exact (percentEncode_ne _ c hc).1
    · intro c hc
      exact (percentEncode_ne _ c (List.take_subset _ _ hc)).1
  · intro c hc
    rw [encodePair] at hc
    rw [List.take_append_of_le_length h3] at hc
    exact h2 c hc
  · rw [heq, List.length_append, List.length_append]
    omega


theorem redactAux_cons_ne {c : Char} (hc : c ≠ 'k') (l : List Char) :
    redactAux (c :: l) = c :: redactAux l := by
  simp only [redactAux]
  rw [if_neg (fun h => hc h.1)]

/-- The redaction scanner applied to a url of the shape assembled by
`format_url` (version, fixed type, id, key, then the rest of the encoded
query): every parameter survives unchanged except the key value, which
becomes `XXX`. -/
theorem redactAux_url_core (EV EI EK S : List Char)
    (hEV : ∀ c ∈ EV, c ≠ '=' ∧ c ≠ '&') (hEI : ∀ c ∈ EI, c ≠ '=' ∧ c ≠ '&')
    (hEK : ∀ c ∈ EK, c ≠ '=' ∧ c ≠ '&') (hS : hasKeyEq S = false) :
    redactAux (serverUrl.data ++ '?' :: ((['v', 'e', 'r', '='] ++ EV) ++ '&' ::
      (['t', 'y', 'p', 'e', '=', '2', '5', '1'] ++ '&' ::
        ((['w', 'i', 'd', '='] ++ EI) ++ '&' ::
          ('k' :: 'e' :: 'y' :: '=' :: (EK ++ '&' :: S)))))) =
    serverUrl.data ++ '?' :: ((['v', 'e', 'r', '='] ++ EV) ++ '&' ::
      (['t', 'y', 'p', 'e', '=', '2', '5', '1'] ++ '&' ::
        ((['w', 'i', 'd', '='] ++ EI) ++ '&' ::
          ('k' :: 'e' :: 'y' :: '=' :: 'X' :: 'X' :: 'X' :: '&' :: S)))) := by
  have hEV1 : ∀ c ∈ EV, c ≠ '=' := fun c hc => (hEV c hc).1
  have hEI1 : ∀ c ∈ EI, c ≠ '=' := fun c hc => (hEI c hc).1
  have hEK2 : ∀ c ∈ EK, c ≠ '&' := fun c hc => (hEK c hc).2
  set SK := 'k' :: 'e' :: 'y' :: '=' :: (EK ++ '&' :: S) with hSK
  set S3 := (['w', 'i', 'd', '='] ++ EI) ++ '&' :: SK with hS3
  set S2 := ['t', 'y', 'p', 'e', '=', '2', '5', '1'] ++ '&' :: S3 with hS2
  set S1 := (['v', 'e', 'r', '='] ++ EV) ++ '&' :: S2 with hS1
  have h1 : hasKeyEq (serverUrl.data ++ ('?' :: S1).take 3) = false := by
    have ht : ('?' :: S1).take 3 = ['?', 'v', 'e'] := by rw [hS1]; rfl
    rw [ht]
    decide
  rw [redactAux_skip h1, redactAux_cons_ne (by decide)]
  have hG1 : hasKeyEq (['v', 'e', 'r', '='] ++ EV) = false :=
    hasKeyEq_append (by decide) (hasKeyEq_of_noEq hEV1)
      (fun c hc => hEV1 c (List.take_subset _ _ hc))
  have h2 : hasKeyEq ((['v', 'e', 'r', '='] ++ EV) ++ ('&' :: S2).take 3) = false := by
    have ht : ('&' :: S2).take 3 = ['&', 't', 'y'] := by rw [hS2]; rfl
    rw [ht]
    exact hasKeyEq_append hG1 (by decide) (by decide)
  rw [hS1, redactAux_skip h2, redactAux_cons_ne (by decide)]
  have h3 : hasKeyEq (['t', 'y', 'p', 'e', '=', '2', '5', '1'] ++
      ('&' :: S3).take 3) = false := by
    have ht : ('&' :: S3).take 3 = ['&', 'w', 'i'] := by rw [hS3]; rfl
    rw [ht]
    decide
  rw [hS2, redactAux_skip h3, redactAux_cons_ne (by decide)]
  have hG3 : hasKeyEq (['w', 'i', 'd', '='] ++ EI) = false :=
    hasKeyEq_append (by decide) (hasKeyEq_of_noEq hEI1)
      (fun c hc => hEI1 c (List.take_subset _ _ hc))
  have h4 : hasKeyEq ((['w', 'i', 'd', '='] ++ EI) ++ ('&' :: SK).take 3) = false := by
    have ht : ('&' :: SK).take 3 = ['&', 'k', 'e'] := by rw [hSK]; rfl
    rw [ht]
    exact hasKeyEq_append hG3 (by decide) (by decide)
  rw [hS3, redactAux_skip h4, redactAux_cons_ne (by decide)]
  rw [hSK]
  simp only [redactAux]
  rw [if_pos (by simp)]
  rw [show ('e' :: 'y' :: '=' :: (EK ++ '&' :: S)).drop 3 = EK ++ '&' :: S from rfl]
  rw [dropWhile_amp hEK2, redactAux_cons_ne (by decide), redactAux_eq_self hS]

/-- The string logged by `format_url` (`re.sub` redaction of the assembled
url) equals the url with the key parameter's value replaced by `XXX`. -/
theorem redactString_urlString (ver id key : String) (dt : ℤ) (fields : Record) :
    redactString (urlString ver id key dt fields) = urlString ver id "XXX" dt fields := by
  have hn : ∀ w ∈ ("time" :: "date" :: dataMap.map (·.wire)),
      hasKeyEq (percentEncode w.data ++ ['=']) = false ∧
      (∀ c ∈ (percentEncode w.data).take 2, c ≠ '=') ∧
      2 ≤ (percentEncode w.data).length := by decide
  have hS : hasKeyEq (joinAmp (encodePair ("time", ⟨hhmmOf dt⟩) ::
      encodePair ("date", ⟨yyyymmddOf dt⟩) :: (dataPairs fields).map encodePair)) =
      false := by
    apply hasKeyEq_joinAmp
    intro x hx
    rcases List.mem_cons.mp hx with rfl | hx
    · exact goodSeg_encodePair _ _ (hn "time" (by decide)).1 (hn "time" (by decide)).2.1
        (hn "time" (by decide)).2.2
    rcases List.mem_cons.mp hx with rfl | hx
    · exact goodSeg_encodePair _ _ (hn "date" (by decide)).1 (hn "date" (by decide)).2.1
        (hn "date" (by decide)).2.2
    · rw [List.mem_map] at hx
      obtain ⟨p, hp, rfl⟩ := hx
      rw [dataPairs, List.mem_filterMap] at hp
      obtain ⟨e, he, hfe⟩ := hp
      cases hdv : dataVal fields e with
      | none => rw [hdv] at hfe; cases hfe
      | some s =>
        rw [hdv] at hfe
        simp only [Option.map_some', Option.some.injEq] at hfe
        subst hfe
        have hw : e.wire ∈ ("time" :: "date" :: dataMap.map (·.wire)) :=
          List.mem_cons_of_mem _ (List.mem_cons_of_mem _ (List.mem_map_of_mem (·.wire) he))
        exact goodSeg_encodePair _ _ (hn e.wire hw).1 (hn e.wire hw).2.1 (hn e.wire hw).2.2
  have hurl0 : (urlString ver id key dt fields).data =
      serverUrl.data ++ '?' :: ((['v', 'e', 'r', '='] ++ percentEncode ver.data) ++ '&' ::
        (['t', 'y', 'p', 'e', '=', '2', '5', '1'] ++ '&' ::
          ((['w', 'i', 'd', '='] ++ percentEncode id.data) ++ '&' ::
            ('k' :: 'e' :: 'y' :: '=' :: (percentEncode key.data ++ '&' ::
              joinAmp (encodePair ("time", ⟨hhmmOf dt⟩) ::
                encodePair ("date", ⟨yyyymmddOf dt⟩) ::
                (dataPairs fields).map encodePair)))))) := rfl
  have hurl1 : (urlString ver id "XXX" dt fields).data =
      serverUrl.data ++ '?' :: ((['v', 'e', 'r', '='] ++ percentEncode ver.data) ++ '&' ::
        (['t', 'y', 'p', 'e', '=', '2', '5', '1'] ++ '&' ::
          ((['w', 'i', 'd', '='] ++ percentEncode id.data) ++ '&' ::
            ('k' :: 'e' :: 'y' :: '=' :: 'X' :: 'X' :: 'X' :: '&' ::
              joinAmp (encodePair ("time", ⟨hhmmOf dt⟩) ::
                encodePair ("date", ⟨yyyymmddOf dt⟩) ::
                (dataPairs fields).map encodePair))))) := rfl
  show String.mk (redactAux (urlString ver id key dt fields).data) =
    String.mk ((urlString ver id "XXX" dt fields).data)
  rw [hurl0, hurl1]
  exact congrArg String.mk (redactAux_url_core _ _ _ _ (percentEncode_ne _)
    (percentEncode_ne _) (percentEncode_ne _) hS)

/-- C9 counterexample: the claim's "the logged output never contains the
secret key value" fails when the secret coincides with another component
of the url: with account key "251", the redacted log line still contains
the substring 251 (it appears as the fixed client identifier `type=251`),
even though the `key=` parameter itself was replaced by `key=XXX`. -/
theorem redaction_key_value_leak :
    occursIn "251".data (redactString (urlString "3" "i" "251" 0 [])).data = true := by
  rw [redactString_urlString]
  decide

/-- C9 (amended): whenever `format_url` writes the assembled url to the
debug log, the `key=...` parameter is replaced by `key=XXX`: for every
record, version, id and secret key the logged string equals the url with
the secret's place taken by the literal `XXX`.  The secret's value
therefore never survives in the key parameter; it can appear in the log
only where it coincides with some other component of the url. -/
theorem redaction_replaces_key (ver id key : String) (dt : ℤ) (fields : Record) :
    redactString (urlString ver id key dt fields) = urlString ver id "XXX" dt fields :=
  redactString_urlString ver id key dt fields
